import Mathlib

/-!
Shallow embedding of the top-level diffing orchestration of difftastic
(`src/lib.rs`, `src/option_types.rs`).

Only the orchestration lives in the sources under verification; the external
collaborators it calls (`files::guess_content`, `parse::guess_language::guess`,
`parse::tree_sitter_parser`, `diff::unchanged::mark_unchanged`,
`diff::dijkstra::mark_syntax`, `diff::sliders::fix_all_sliders`,
`line_parser::change_positions`, `parse::syntax::change_positions`) are other
modules of the crate.  They are modelled as components of a dependency record
`Deps`, and every theorem below is quantified over all possible
implementations of those components: the properties proved are exactly the
ones decided by the orchestration code itself, regardless of what the
collaborators compute.

Byte buffers are modelled as `List Nat`, decoded source text as `List Char`
(Rust `String` operations such as `ends_with('\n')` / `pop` act on chars).
The environment lookup `env::var("DFT_DBG_KEEP_UNCHANGED").is_ok()` is a
boolean input `keep_unchanged` of the embedding.
-/

/-- Embeds `files::ProbableFileKind`: the content-classification result of
`guess_content`.  `Text` carries the decoded source string. -/
inductive ProbableFileKind where
  | Binary : ProbableFileKind
  | Text : List Char → ProbableFileKind
deriving DecidableEq, Repr

/-- Embeds `summary::FileContent`: per-side content stored in a `DiffResult`.
`Binary` carries the raw bytes (`lhs_bytes.to_vec()`), `Text` the processed
source string. -/
inductive FileContent where
  | Binary : List Nat → FileContent
  | Text : List Char → FileContent
deriving DecidableEq, Repr

/-- Embeds `option_types::FileArgument` (`NamedPath(PathBuf)`, `Stdin`,
`DevNull`). -/
inductive FileArgument where
  | NamedPath : String → FileArgument
  | Stdin : FileArgument
  | DevNull : FileArgument
deriving DecidableEq, Repr

/-- Embeds `summary::DiffResult`, parameterized by the opaque language tag
type `L` and the position-span type `P` (both defined in modules outside the
sources under verification). -/
structure DiffResult (L P : Type) where
  lhs_display_path : String
  rhs_display_path : String
  language : Option String
  detected_language : Option L
  lhs_src : FileContent
  rhs_src : FileContent
  lhs_positions : List P
  rhs_positions : List P
deriving DecidableEq, Repr

/-- The external collaborators called by `diff_file_content`, abstracted as a
record so that every theorem holds for all implementations.  Type parameters:
`L` = `guess_language::Language`, `T` = the tree-sitter language
configuration returned by `tsp::from_language`, `P` = position spans,
`N` = syntax nodes, `C` = `ChangeMap`.

Field ↔ source correspondence:
* `guess_content`       ↔ `files::guess_content`
* `guess`               ↔ `parse::guess_language::guess(path, src)`
* `language_name`       ↔ `parse::guess_language::language_name`
* `from_language`       ↔ `parse::tree_sitter_parser::from_language`
* `parse`               ↔ `tsp::parse(&arena, &src, &ts_lang)` (the arena is
                          an allocation detail with no observable state here)
* `line_change_positions` ↔ the line-diff fallback `change_positions` of the
                          crate's line-oriented diff module
* `empty_change_map`    ↔ `ChangeMap::default()`
* `mark_unchanged`      ↔ `unchanged::mark_unchanged` (returns the gap list
                          and the updated change map)
* `mark_syntax_fn`      ↔ `dijkstra::mark_syntax`; `none` stands for
                          `Err(ExceededGraphLimit {})`, `some cm` for `Ok(())`
                          together with the updated change map
* `fix_all_sliders`     ↔ `sliders::fix_all_sliders`
* `ast_change_positions` ↔ `parse::syntax::change_positions` -/
structure Deps (L T P N C : Type) where
  guess_content : List Nat → ProbableFileKind
  guess : String → List Char → Option L
  language_name : L → String
  from_language : L → T
  parse : List Char → T → List N
  line_change_positions : List Char → List Char → List P
  empty_change_map : C
  mark_unchanged : List N → List N → C → List (List N × List N) × C
  mark_syntax_fn : Option N → Option N → C → Nat → Option C
  fix_all_sliders : L → List N → C → C
  ast_change_positions : List N → C → List P

variable {L T P N C : Type}

/-- Embeds `replace_tabs` (`src/lib.rs` lines 244-247): `" ".repeat(tab_width)`
substituted for every `'\t'` of the source, scanning left to right exactly as
Rust `str::replace` does for a single-char pattern. -/
def replace_tabs : List Char → Nat → List Char
  | [], _ => []
  | c :: cs, tab_width =>
      (if c = '\t' then List.replicate tab_width ' ' else [c]) ++
        replace_tabs cs tab_width

/-- Embeds the trailing-newline handling of `diff_file_content` (lines
121-126): `if src.ends_with('\n') { src.pop(); }`. -/
def strip_trailing_newline (s : List Char) : List Char :=
  if s.getLast? = some '\n' then s.dropLast else s

/-- The source string actually diffed: tabs replaced, then at most one
trailing newline removed (lines 114-126 of `src/lib.rs`). -/
def processedSource (src : List Char) (tab_width : Nat) : List Char :=
  strip_trailing_newline (replace_tabs src tab_width)

/-- Embeds the `(guess_src, guess_path)` selection of `diff_file_content`
(lines 128-132): which source string and which display path feed the language
guesser, chosen by the `rhs_path` kind alone. -/
def guessInputs (rhs_path : FileArgument) (lhs_display_path rhs_display_path : String)
    (lhs_src rhs_src : List Char) : List Char × String :=
  match rhs_path with
  | .NamedPath _ => (rhs_src, rhs_display_path)
  | .Stdin => (rhs_src, lhs_display_path)
  | .DevNull => (lhs_src, lhs_display_path)

/-- Embeds `language_override.or_else(|| guess(guess_path, guess_src))`
(line 134). -/
def languageFor (E : Deps L T P N C) (language_override : Option L)
    (rhs_path : FileArgument) (lhs_display_path rhs_display_path : String)
    (lhs_src rhs_src : List Char) : Option L :=
  language_override.orElse fun _ =>
    E.guess (guessInputs rhs_path lhs_display_path rhs_display_path lhs_src rhs_src).2
      (guessInputs rhs_path lhs_display_path rhs_display_path lhs_src rhs_src).1

/-- Embeds the choice of sections fed to the search (lines 170-174): with
`DFT_DBG_KEEP_UNCHANGED` set, the single gap `[(lhs, rhs)]` of the two full
root node lists and an untouched default change map; otherwise the gaps and
change map produced by `unchanged::mark_unchanged`. -/
def gapsAndMap (E : Deps L T P N C) (keep_unchanged : Bool)
    (lhs rhs : List N) : List (List N × List N) × C :=
  if keep_unchanged then ([(lhs, rhs)], E.empty_change_map)
  else E.mark_unchanged lhs rhs E.empty_change_map

/-- Embeds the `for (lhs_section_nodes, rhs_section_nodes) in possibly_changed`
loop (lines 178-194): each gap's first nodes (`.get(0).copied()` = `head?`)
are handed to the search with the current change map; the first
`ExceededGraphLimit` (here `none`) aborts the loop.  (`init_next_prev` only
initializes sibling pointers inside the arena, which the abstract search
components already observe through the node lists.) -/
def processGaps (E : Deps L T P N C) (graph_limit : Nat) :
    List (List N × List N) → C → Option C
  | [], cm => some cm
  | (lhs_section, rhs_section) :: rest, cm =>
      match E.mark_syntax_fn lhs_section.head? rhs_section.head? cm graph_limit with
      | some cm' => processGaps E graph_limit rest cm'
      | none => none

/-- The whole trim-then-search phase: `none` means the search exceeded the
graph limit on some gap. -/
def astPathMap (E : Deps L T P N C) (keep_unchanged : Bool) (graph_limit : Nat)
    (lhs rhs : List N) : Option C :=
  processGaps E graph_limit (gapsAndMap E keep_unchanged lhs rhs).1
    (gapsAndMap E keep_unchanged lhs rhs).2

/-- Embeds the `let (lang_name, lhs_positions, rhs_positions) = match
lang_config { ... }` block of `diff_file_content` (lines 152-225), operating
on the already-processed sources.  The byte-limit guard is checked first, on
the raw byte lengths, regardless of grammar availability. -/
def textOutcome (E : Deps L T P N C) (keep_unchanged : Bool)
    (graph_limit byte_limit : Nat) (lhs_bytes rhs_bytes : List Nat)
    (lhs_src rhs_src : List Char) (language : Option L) :
    Option String × List P × List P :=
  if lhs_bytes.length > byte_limit ∨ rhs_bytes.length > byte_limit then
    (some "Text (exceeded DFT_BYTE_LIMIT)",
      E.line_change_positions lhs_src rhs_src,
      E.line_change_positions rhs_src lhs_src)
  else
    match language with
    | some lang =>
        let ts_lang := E.from_language lang
        let lhs := E.parse lhs_src ts_lang
        let rhs := E.parse rhs_src ts_lang
        match astPathMap E keep_unchanged graph_limit lhs rhs with
        | none =>
            (some "Text (exceeded DFT_GRAPH_LIMIT)",
              E.line_change_positions lhs_src rhs_src,
              E.line_change_positions rhs_src lhs_src)
        | some cm =>
            let cm1 := E.fix_all_sliders lang lhs cm
            let cm2 := E.fix_all_sliders lang rhs cm1
            (some (E.language_name lang),
              E.ast_change_positions lhs cm2,
              E.ast_change_positions rhs cm2)
    | none =>
        (none,
          E.line_change_positions lhs_src rhs_src,
          E.line_change_positions rhs_src lhs_src)

/-- Embeds the text path of `diff_file_content` (lines 128-237), taking the
already tab-replaced and newline-stripped sources: language determination,
the identical-bytes short circuit, the outcome match, and the final record. -/
def textResult (E : Deps L T P N C) (keep_unchanged : Bool)
    (lhs_display_path rhs_display_path : String) (rhs_path : FileArgument)
    (lhs_bytes rhs_bytes : List Nat) (graph_limit byte_limit : Nat)
    (language_override : Option L) (lhs_src rhs_src : List Char) :
    DiffResult L P :=
  let language := languageFor E language_override rhs_path lhs_display_path
    rhs_display_path lhs_src rhs_src
  if lhs_bytes = rhs_bytes then
    { lhs_display_path := lhs_display_path
      rhs_display_path := rhs_display_path
      language := language.map E.language_name
      detected_language := language
      lhs_src := FileContent.Text []
      rhs_src := FileContent.Text []
      lhs_positions := []
      rhs_positions := [] }
  else
    let out := textOutcome E keep_unchanged graph_limit byte_limit lhs_bytes
      rhs_bytes lhs_src rhs_src language
    { lhs_display_path := lhs_display_path
      rhs_display_path := rhs_display_path
      language := out.1
      detected_language := language
      lhs_src := FileContent.Text lhs_src
      rhs_src := FileContent.Text rhs_src
      lhs_positions := out.2.1
      rhs_positions := out.2.2 }

/-- Embeds `diff_file_content` (`src/lib.rs` lines 86-237).  `keep_unchanged`
is the truth of `env::var("DFT_DBG_KEEP_UNCHANGED").is_ok()`; `_lhs_path` is
kept to mirror the signature and is never read, exactly as in the source. -/
def diff_file_content (E : Deps L T P N C) (keep_unchanged : Bool)
    (lhs_display_path rhs_display_path : String)
    (_lhs_path rhs_path : FileArgument) (lhs_bytes rhs_bytes : List Nat)
    (tab_width graph_limit byte_limit : Nat) (language_override : Option L) :
    DiffResult L P :=
  match E.guess_content lhs_bytes, E.guess_content rhs_bytes with
  | ProbableFileKind.Binary, _ =>
      { lhs_display_path := lhs_display_path
        rhs_display_path := rhs_display_path
        language := none
        detected_language := none
        lhs_src := FileContent.Binary lhs_bytes
        rhs_src := FileContent.Binary rhs_bytes
        lhs_positions := []
        rhs_positions := [] }
  | _, ProbableFileKind.Binary =>
      { lhs_display_path := lhs_display_path
        rhs_display_path := rhs_display_path
        language := none
        detected_language := none
        lhs_src := FileContent.Binary lhs_bytes
        rhs_src := FileContent.Binary rhs_bytes
        lhs_positions := []
        rhs_positions := [] }
  | ProbableFileKind.Text lhs_src0, ProbableFileKind.Text rhs_src0 =>
      textResult E keep_unchanged lhs_display_path rhs_display_path rhs_path
        lhs_bytes rhs_bytes graph_limit byte_limit language_override
        (processedSource lhs_src0 tab_width) (processedSource rhs_src0 tab_width)

/-- A concrete dependency record over `Nat`-instantiated type parameters,
used to evaluate the theorems on concrete inputs. -/
def witDeps : Deps Nat Nat Nat Nat Nat where
  guess_content := fun bs =>
    match bs with
    | [0] => ProbableFileKind.Binary
    | [1] => ProbableFileKind.Text ['a', '\n']
    | [2] => ProbableFileKind.Text ['b', '\n']
    | _ => ProbableFileKind.Text ['x']
  guess := fun _ _ => none
  language_name := fun _ => "Lang"
  from_language := fun l => l
  parse := fun _ _ => []
  line_change_positions := fun _ _ => []
  empty_change_map := 0
  mark_unchanged := fun lhs rhs cm => ([(lhs, rhs)], cm)
  mark_syntax_fn := fun _ _ _ _ => none
  fix_all_sliders := fun _ _ cm => cm
  ast_change_positions := fun _ _ => []

/-- Claim C1: whenever the two byte buffers are identical, `diff_file_content`
returns a result whose `lhs_positions` and `rhs_positions` are both empty
(whether the inputs are classified as binary or as text). -/
theorem identical_inputs_positions_empty (E : Deps L T P N C)
    (keep_unchanged : Bool) (ldp rdp : String) (p q : FileArgument)
    (lb rb : List Nat) (tw gl bl : Nat) (lo : Option L) (h : lb = rb) :
    (diff_file_content E keep_unchanged ldp rdp p q lb rb tw gl bl lo).lhs_positions = [] ∧
    (diff_file_content E keep_unchanged ldp rdp p q lb rb tw gl bl lo).rhs_positions = [] := by
  subst h
  unfold diff_file_content
  cases hg : E.guess_content lb with
  | Binary => simp
  | Text s => simp [textResult]

/-- Claim C1 witness: the theorem evaluated at a concrete identical input. -/
theorem identical_inputs_positions_empty_witness :
    ([1] : List Nat) = [1] ∧
    ((diff_file_content witDeps false "a" "b" FileArgument.DevNull
        FileArgument.DevNull [1] [1] 8 100 100 none).lhs_positions = [] ∧
      (diff_file_content witDeps false "a" "b" FileArgument.DevNull
        FileArgument.DevNull [1] [1] 8 100 100 none).rhs_positions = []) :=
  ⟨rfl, identical_inputs_positions_empty witDeps false "a" "b"
    FileArgument.DevNull FileArgument.DevNull [1] [1] 8 100 100 none rfl⟩

/-- Helper for the binary case: whenever either side is classified binary,
the result is the fixed binary record (lines 98-110 of `src/lib.rs`). -/
theorem binary_case_eq (E : Deps L T P N C) (keep_unchanged : Bool)
    (ldp rdp : String) (p q : FileArgument) (lb rb : List Nat)
    (tw gl bl : Nat) (lo : Option L)
    (h : E.guess_content lb = ProbableFileKind.Binary ∨
      E.guess_content rb = ProbableFileKind.Binary) :
    diff_file_content E keep_unchanged ldp rdp p q lb rb tw gl bl lo =
      { lhs_display_path := ldp
        rhs_display_path := rdp
        language := none
        detected_language := none
        lhs_src := FileContent.Binary lb
        rhs_src := FileContent.Binary rb
        lhs_positions := []
        rhs_positions := [] } := by
  unfold diff_file_content
  rcases h with h | h
  · rw [h]
    cases hg : E.guess_content rb with
    | Binary => rfl
    | Text s => rfl
  · rw [h]
    cases hg : E.guess_content lb with
    | Binary => rfl
    | Text s => rfl

/-- Claim C2: when either side is classified as binary, `diff_file_content`
returns `FileContent::Binary` of the raw bytes on both sides, a null language
(both fields), and empty position lists; and the result is independent of
every other collaborator (parsing, trimming, search, sliders, line diff,
guessing), formalising that none of them is performed. -/
theorem binary_input_result (E : Deps L T P N C) (keep_unchanged : Bool)
    (ldp rdp : String) (p q : FileArgument) (lb rb : List Nat)
    (tw gl bl : Nat) (lo : Option L)
    (h : E.guess_content lb = ProbableFileKind.Binary ∨
      E.guess_content rb = ProbableFileKind.Binary) :
    ((diff_file_content E keep_unchanged ldp rdp p q lb rb tw gl bl lo).lhs_src =
        FileContent.Binary lb ∧
      (diff_file_content E keep_unchanged ldp rdp p q lb rb tw gl bl lo).rhs_src =
        FileContent.Binary rb ∧
      (diff_file_content E keep_unchanged ldp rdp p q lb rb tw gl bl lo).language = none ∧
      (diff_file_content E keep_unchanged ldp rdp p q lb rb tw gl bl lo).detected_language = none ∧
      (diff_file_content E keep_unchanged ldp rdp p q lb rb tw gl bl lo).lhs_positions = [] ∧
      (diff_file_content E keep_unchanged ldp rdp p q lb rb tw gl bl lo).rhs_positions = []) ∧
    ∀ E' : Deps L T P N C, E'.guess_content = E.guess_content →
      diff_file_content E' keep_unchanged ldp rdp p q lb rb tw gl bl lo =
        diff_file_content E keep_unchanged ldp rdp p q lb rb tw gl bl lo := by
  have hE := binary_case_eq E keep_unchanged ldp rdp p q lb rb tw gl bl lo h
  refine ⟨?_, ?_⟩
  · rw [hE]
    exact ⟨rfl, rfl, rfl, rfl, rfl, rfl⟩
  · intro E' hgc
    have h' : E'.guess_content lb = ProbableFileKind.Binary ∨
        E'.guess_content rb = ProbableFileKind.Binary := by
      rw [hgc]; exact h
    rw [hE, binary_case_eq E' keep_unchanged ldp rdp p q lb rb tw gl bl lo h']

/-- Claim C2 witness: the theorem evaluated at a concrete binary lhs input. -/
theorem binary_input_result_witness :
    (witDeps.guess_content [0] = ProbableFileKind.Binary ∨
      witDeps.guess_content [2] = ProbableFileKind.Binary) ∧
    (((diff_file_content witDeps false "a" "b" FileArgument.DevNull
          FileArgument.DevNull [0] [2] 8 100 100 none).lhs_src =
        FileContent.Binary [0] ∧
      (diff_file_content witDeps false "a" "b" FileArgument.DevNull
          FileArgument.DevNull [0] [2] 8 100 100 none).rhs_src =
        FileContent.Binary [2] ∧
      (diff_file_content witDeps false "a" "b" FileArgument.DevNull
          FileArgument.DevNull [0] [2] 8 100 100 none).language = none ∧
      (diff_file_content witDeps false "a" "b" FileArgument.DevNull
          FileArgument.DevNull [0] [2] 8 100 100 none).detected_language = none ∧
      (diff_file_content witDeps false "a" "b" FileArgument.DevNull
          FileArgument.DevNull [0] [2] 8 100 100 none).lhs_positions = [] ∧
      (diff_file_content witDeps false "a" "b" FileArgument.DevNull
          FileArgument.DevNull [0] [2] 8 100 100 none).rhs_positions = []) ∧
    ∀ E' : Deps Nat Nat Nat Nat Nat, E'.guess_content = witDeps.guess_content →
      diff_file_content E' false "a" "b" FileArgument.DevNull
          FileArgument.DevNull [0] [2] 8 100 100 none =
        diff_file_content witDeps false "a" "b" FileArgument.DevNull
          FileArgument.DevNull [0] [2] 8 100 100 none) :=
  ⟨Or.inl rfl, binary_input_result witDeps false "a" "b" FileArgument.DevNull
    FileArgument.DevNull [0] [2] 8 100 100 none (Or.inl rfl)⟩

/-- Claim C8: the `_lhs_path` argument is never read, so two calls differing
only in that argument return identical results. -/
theorem lhs_path_kind_never_read (E : Deps L T P N C) (keep_unchanged : Bool)
    (ldp rdp : String) (p p' q : FileArgument) (lb rb : List Nat)
    (tw gl bl : Nat) (lo : Option L) :
    diff_file_content E keep_unchanged ldp rdp p q lb rb tw gl bl lo =
      diff_file_content E keep_unchanged ldp rdp p' q lb rb tw gl bl lo := rfl

/-- Claim C10: for byte-identical text inputs, the short-circuit result
carries `FileContent::Text("")` on both sides (not the actual source text),
while both language fields still report the overridden-or-guessed language
(lines 137-150 of `src/lib.rs`). -/
theorem identical_text_short_circuit (E : Deps L T P N C)
    (keep_unchanged : Bool) (ldp rdp : String) (p q : FileArgument)
    (lb rb : List Nat) (tw gl bl : Nat) (lo : Option L) (l r : List Char)
    (hl : E.guess_content lb = ProbableFileKind.Text l)
    (hr : E.guess_content rb = ProbableFileKind.Text r)
    (heq : lb = rb) :
    (diff_file_content E keep_unchanged ldp rdp p q lb rb tw gl bl lo).lhs_src =
      FileContent.Text [] ∧
    (diff_file_content E keep_unchanged ldp rdp p q lb rb tw gl bl lo).rhs_src =
      FileContent.Text [] ∧
    (diff_file_content E keep_unchanged ldp rdp p q lb rb tw gl bl lo).language =
      (languageFor E lo q ldp rdp (processedSource l tw) (processedSource r tw)).map
        E.language_name ∧
    (diff_file_content E keep_unchanged ldp rdp p q lb rb tw gl bl lo).detected_language =
      languageFor E lo q ldp rdp (processedSource l tw) (processedSource r tw) := by
  subst heq
  have hlr : ProbableFileKind.Text l = ProbableFileKind.Text r := hl.symm.trans hr
  injection hlr with hlr
  subst hlr
  unfold diff_file_content
  rw [hl]
  simp [textResult]

/-- Claim C10 witness: the theorem evaluated at a concrete identical text
input. -/
theorem identical_text_short_circuit_witness :
    witDeps.guess_content [1] = ProbableFileKind.Text ['a', '\n'] ∧
    ((diff_file_content witDeps false "a" "b" FileArgument.DevNull
        FileArgument.DevNull [1] [1] 8 100 100 none).lhs_src =
      FileContent.Text [] ∧
    (diff_file_content witDeps false "a" "b" FileArgument.DevNull
        FileArgument.DevNull [1] [1] 8 100 100 none).rhs_src =
      FileContent.Text [] ∧
    (diff_file_content witDeps false "a" "b" FileArgument.DevNull
        FileArgument.DevNull [1] [1] 8 100 100 none).language =
      (languageFor witDeps none FileArgument.DevNull "a" "b"
        (processedSource ['a', '\n'] 8) (processedSource ['a', '\n'] 8)).map
        witDeps.language_name ∧
    (diff_file_content witDeps false "a" "b" FileArgument.DevNull
        FileArgument.DevNull [1] [1] 8 100 100 none).detected_language =
      languageFor witDeps none FileArgument.DevNull "a" "b"
        (processedSource ['a', '\n'] 8) (processedSource ['a', '\n'] 8)) :=
  ⟨rfl, identical_text_short_circuit witDeps false "a" "b" FileArgument.DevNull
    FileArgument.DevNull [1] [1] 8 100 100 none ['a', '\n'] ['a', '\n']
    rfl rfl rfl⟩

/-- Claim C3: for non-identical text inputs where either side's byte length
exceeds `byte_limit`, the result's language name is exactly
`"Text (exceeded DFT_BYTE_LIMIT)"` and both position lists come from the
line-diff fallback, regardless of override or guesser (both are universally
quantified here), per lines 152-161 of `src/lib.rs`. -/
theorem byte_limit_fallback (E : Deps L T P N C) (keep_unchanged : Bool)
    (ldp rdp : String) (p q : FileArgument) (lb rb : List Nat)
    (tw gl bl : Nat) (lo : Option L) (l r : List Char)
    (hl : E.guess_content lb = ProbableFileKind.Text l)
    (hr : E.guess_content rb = ProbableFileKind.Text r)
    (hne : lb ≠ rb) (hlim : lb.length > bl ∨ rb.length > bl) :
    (diff_file_content E keep_unchanged ldp rdp p q lb rb tw gl bl lo).language =
      some "Text (exceeded DFT_BYTE_LIMIT)" ∧
    (diff_file_content E keep_unchanged ldp rdp p q lb rb tw gl bl lo).lhs_positions =
      E.line_change_positions (processedSource l tw) (processedSource r tw) ∧
    (diff_file_content E keep_unchanged ldp rdp p q lb rb tw gl bl lo).rhs_positions =
      E.line_change_positions (processedSource r tw) (processedSource l tw) := by
  unfold diff_file_content
  rw [hl, hr]
  simp only [textResult, if_neg hne, textOutcome, if_pos hlim]
  exact ⟨trivial, trivial, trivial⟩

/-- Claim C3 witness: the theorem evaluated at a concrete over-limit input
(byte limit 0, both sides length 1, a language override present, showing the
fallback wins over an available grammar). -/
theorem byte_limit_fallback_witness :
    witDeps.guess_content [1] = ProbableFileKind.Text ['a', '\n'] ∧
    witDeps.guess_content [2] = ProbableFileKind.Text ['b', '\n'] ∧
    ([1] : List Nat) ≠ [2] ∧
    (([1] : List Nat).length > 0 ∨ ([2] : List Nat).length > 0) ∧
    ((diff_file_content witDeps false "a" "b" FileArgument.DevNull
        FileArgument.DevNull [1] [2] 8 100 0 (some 5)).language =
      some "Text (exceeded DFT_BYTE_LIMIT)" ∧
    (diff_file_content witDeps false "a" "b" FileArgument.DevNull
        FileArgument.DevNull [1] [2] 8 100 0 (some 5)).lhs_positions =
      witDeps.line_change_positions (processedSource ['a', '\n'] 8)
        (processedSource ['b', '\n'] 8) ∧
    (diff_file_content witDeps false "a" "b" FileArgument.DevNull
        FileArgument.DevNull [1] [2] 8 100 0 (some 5)).rhs_positions =
      witDeps.line_change_positions (processedSource ['b', '\n'] 8)
        (processedSource ['a', '\n'] 8)) :=
  ⟨rfl, rfl, by decide, Or.inl (by decide),
    byte_limit_fallback witDeps false "a" "b" FileArgument.DevNull
      FileArgument.DevNull [1] [2] 8 100 0 (some 5) ['a', '\n'] ['b', '\n']
      rfl rfl (by decide) (Or.inl (by decide))⟩

/-- Claim C5: for non-identical text inputs within the byte limit, when no
language is determined (override and guesser both yield nothing, i.e.
`languageFor` is `none`), both position lists come from the line-diff
fallback and the returned language name is null (lines 220-224 of
`src/lib.rs`). -/
theorem no_grammar_fallback (E : Deps L T P N C) (keep_unchanged : Bool)
    (ldp rdp : String) (p q : FileArgument) (lb rb : List Nat)
    (tw gl bl : Nat) (lo : Option L) (l r : List Char)
    (hl : E.guess_content lb = ProbableFileKind.Text l)
    (hr : E.guess_content rb = ProbableFileKind.Text r)
    (hne : lb ≠ rb) (hlim : ¬(lb.length > bl ∨ rb.length > bl))
    (hlang : languageFor E lo q ldp rdp (processedSource l tw)
      (processedSource r tw) = none) :
    (diff_file_content E keep_unchanged ldp rdp p q lb rb tw gl bl lo).language = none ∧
    (diff_file_content E keep_unchanged ldp rdp p q lb rb tw gl bl lo).lhs_positions =
      E.line_change_positions (processedSource l tw) (processedSource r tw) ∧
    (diff_file_content E keep_unchanged ldp rdp p q lb rb tw gl bl lo).rhs_positions =
      E.line_change_positions (processedSource r tw) (processedSource l tw) := by
  unfold diff_file_content
  rw [hl, hr]
  simp only [textResult, if_neg hne, textOutcome, if_neg hlim, hlang]
  exact ⟨trivial, trivial, trivial⟩

/-- Claim C5 witness: the theorem evaluated at a concrete input with no
override and a guesser returning nothing. -/
theorem no_grammar_fallback_witness :
    witDeps.guess_content [1] = ProbableFileKind.Text ['a', '\n'] ∧
    witDeps.guess_content [2] = ProbableFileKind.Text ['b', '\n'] ∧
    ([1] : List Nat) ≠ [2] ∧
    ¬(([1] : List Nat).length > 5 ∨ ([2] : List Nat).length > 5) ∧
    languageFor witDeps none FileArgument.DevNull "a" "b"
      (processedSource ['a', '\n'] 8) (processedSource ['b', '\n'] 8) = none ∧
    ((diff_file_content witDeps false "a" "b" FileArgument.DevNull
        FileArgument.DevNull [1] [2] 8 100 5 none).language = none ∧
    (diff_file_content witDeps false "a" "b" FileArgument.DevNull
        FileArgument.DevNull [1] [2] 8 100 5 none).lhs_positions =
      witDeps.line_change_positions (processedSource ['a', '\n'] 8)
        (processedSource ['b', '\n'] 8) ∧
    (diff_file_content witDeps false "a" "b" FileArgument.DevNull
        FileArgument.DevNull [1] [2] 8 100 5 none).rhs_positions =
      witDeps.line_change_positions (processedSource ['b', '\n'] 8)
        (processedSource ['a', '\n'] 8)) :=
  ⟨rfl, rfl, by decide, by decide, rfl,
    no_grammar_fallback witDeps false "a" "b" FileArgument.DevNull
      FileArgument.DevNull [1] [2] 8 100 5 none ['a', '\n'] ['b', '\n']
      rfl rfl (by decide) (by decide) rfl⟩

/-- Claim C4: for non-identical text inputs within the byte limit with a
grammar available, when the gap-wise search aborts with
`ExceededGraphLimit` (here: `astPathMap` is `none`, i.e. `mark_syntax`
returned the error on the first gap it was still run on), the AST path is
abandoned: both position lists come from the line-diff fallback and the
language name is exactly `"Text (exceeded DFT_GRAPH_LIMIT)"` (lines 176-203
of `src/lib.rs`). -/
theorem graph_limit_fallback (E : Deps L T P N C) (keep_unchanged : Bool)
    (ldp rdp : String) (p q : FileArgument) (lb rb : List Nat)
    (tw gl bl : Nat) (lo : Option L) (l r : List Char) (lang : L)
    (hl : E.guess_content lb = ProbableFileKind.Text l)
    (hr : E.guess_content rb = ProbableFileKind.Text r)
    (hne : lb ≠ rb) (hlim : ¬(lb.length > bl ∨ rb.length > bl))
    (hlang : languageFor E lo q ldp rdp (processedSource l tw)
      (processedSource r tw) = some lang)
    (hgap : astPathMap E keep_unchanged gl
      (E.parse (processedSource l tw) (E.from_language lang))
      (E.parse (processedSource r tw) (E.from_language lang)) = none) :
    (diff_file_content E keep_unchanged ldp rdp p q lb rb tw gl bl lo).language =
      some "Text (exceeded DFT_GRAPH_LIMIT)" ∧
    (diff_file_content E keep_unchanged ldp rdp p q lb rb tw gl bl lo).lhs_positions =
      E.line_change_positions (processedSource l tw) (processedSource r tw) ∧
    (diff_file_content E keep_unchanged ldp rdp p q lb rb tw gl bl lo).rhs_positions =
      E.line_change_positions (processedSource r tw) (processedSource l tw) := by
  unfold diff_file_content
  rw [hl, hr]
  simp only [textResult, if_neg hne, textOutcome, if_neg hlim, hlang, hgap]
  exact ⟨trivial, trivial, trivial⟩

/-- Claim C4 witness: the theorem evaluated with a concrete dependency record
whose search always reports `ExceededGraphLimit`, an overridden language, and
concrete non-identical inputs within the byte limit. -/
theorem graph_limit_fallback_witness :
    witDeps.guess_content [1] = ProbableFileKind.Text ['a', '\n'] ∧
    witDeps.guess_content [2] = ProbableFileKind.Text ['b', '\n'] ∧
    ([1] : List Nat) ≠ [2] ∧
    ¬(([1] : List Nat).length > 5 ∨ ([2] : List Nat).length > 5) ∧
    languageFor witDeps (some 7) FileArgument.DevNull "a" "b"
      (processedSource ['a', '\n'] 8) (processedSource ['b', '\n'] 8) = some 7 ∧
    astPathMap witDeps true 100
      (witDeps.parse (processedSource ['a', '\n'] 8) (witDeps.from_language 7))
      (witDeps.parse (processedSource ['b', '\n'] 8) (witDeps.from_language 7)) = none ∧
    ((diff_file_content witDeps true "a" "b" FileArgument.DevNull
        FileArgument.DevNull [1] [2] 8 100 5 (some 7)).language =
      some "Text (exceeded DFT_GRAPH_LIMIT)" ∧
    (diff_file_content witDeps true "a" "b" FileArgument.DevNull
        FileArgument.DevNull [1] [2] 8 100 5 (some 7)).lhs_positions =
      witDeps.line_change_positions (processedSource ['a', '\n'] 8)
        (processedSource ['b', '\n'] 8) ∧
    (diff_file_content witDeps true "a" "b" FileArgument.DevNull
        FileArgument.DevNull [1] [2] 8 100 5 (some 7)).rhs_positions =
      witDeps.line_change_positions (processedSource ['b', '\n'] 8)
        (processedSource ['a', '\n'] 8)) :=
  ⟨rfl, rfl, by decide, by decide, rfl, rfl,
    graph_limit_fallback witDeps true "a" "b" FileArgument.DevNull
      FileArgument.DevNull [1] [2] 8 100 5 (some 7) ['a', '\n'] ['b', '\n'] 7
      rfl rfl (by decide) (by decide) rfl rfl⟩

/-- Claim C6: `replace_tabs` replaces each tab character with exactly
`tab_width` space characters and leaves every other character alone; and for
text inputs, `diff_file_content` equals the text path applied to
`processedSource` = the tab-replaced (then newline-stripped) sources, so
every later stage — parsing included — only ever sees the tab-replaced text
(lines 114-116 and 244-247 of `src/lib.rs`). -/
theorem replace_tabs_spec_and_applied (E : Deps L T P N C)
    (keep_unchanged : Bool) (ldp rdp : String) (p q : FileArgument)
    (lb rb : List Nat) (tw gl bl : Nat) (lo : Option L) (l r : List Char)
    (hl : E.guess_content lb = ProbableFileKind.Text l)
    (hr : E.guess_content rb = ProbableFileKind.Text r) :
    (∀ s : List Char, replace_tabs s tw =
      s.flatMap fun c => if c = '\t' then List.replicate tw ' ' else [c]) ∧
    diff_file_content E keep_unchanged ldp rdp p q lb rb tw gl bl lo =
      textResult E keep_unchanged ldp rdp q lb rb gl bl lo
        (processedSource l tw) (processedSource r tw) := by
  constructor
  · intro s
    induction s with
    | nil => rfl
    | cons c cs ih => simp [replace_tabs, ih]
  · unfold diff_file_content
    rw [hl, hr]

/-- Claim C6 witness: the tab-replacement equation evaluated on a concrete
string and the text-path equation at a concrete text input. -/
theorem replace_tabs_spec_and_applied_witness :
    witDeps.guess_content [1] = ProbableFileKind.Text ['a', '\n'] ∧
    witDeps.guess_content [2] = ProbableFileKind.Text ['b', '\n'] ∧
    replace_tabs ['a', '\t', 'b'] 2 =
      (['a', '\t', 'b'].flatMap fun c =>
        if c = '\t' then List.replicate 2 ' ' else [c]) ∧
    diff_file_content witDeps false "a" "b" FileArgument.DevNull
        FileArgument.DevNull [1] [2] 2 100 100 none =
      textResult witDeps false "a" "b" FileArgument.DevNull [1] [2] 100 100 none
        (processedSource ['a', '\n'] 2) (processedSource ['b', '\n'] 2) :=
  ⟨rfl, rfl,
    (replace_tabs_spec_and_applied witDeps false "a" "b" FileArgument.DevNull
      FileArgument.DevNull [1] [2] 2 100 100 none ['a', '\n'] ['b', '\n']
      rfl rfl).1 ['a', '\t', 'b'],
    (replace_tabs_spec_and_applied witDeps false "a" "b" FileArgument.DevNull
      FileArgument.DevNull [1] [2] 2 100 100 none ['a', '\n'] ['b', '\n']
      rfl rfl).2⟩

/-- Claim C7: with `DFT_DBG_KEEP_UNCHANGED` set (`keep_unchanged = true`) the
search is fed the single gap of the two full root node lists over the default
change map and the result never depends on the trimmer (replacing
`mark_unchanged` by any function leaves `diff_file_content` unchanged); with
it unset the gaps fed to the search are exactly the trimmer's output (lines
170-174 of `src/lib.rs`).  The first conjunct records that `diff_file_content`
routes `gapsAndMap`'s gaps into the gap-loop `processGaps`. -/
theorem keep_unchanged_env_controls_gaps (E : Deps L T P N C) :
    (∀ (keep_unchanged : Bool) (gl : Nat) (lhs rhs : List N),
      astPathMap E keep_unchanged gl lhs rhs =
        processGaps E gl (gapsAndMap E keep_unchanged lhs rhs).1
          (gapsAndMap E keep_unchanged lhs rhs).2) ∧
    (∀ lhs rhs : List N,
      gapsAndMap E true lhs rhs = ([(lhs, rhs)], E.empty_change_map)) ∧
    (∀ lhs rhs : List N,
      gapsAndMap E false lhs rhs =
        E.mark_unchanged lhs rhs E.empty_change_map) ∧
    (∀ (f : List N → List N → C → List (List N × List N) × C)
      (ldp rdp : String) (p q : FileArgument) (lb rb : List Nat)
      (tw gl bl : Nat) (lo : Option L),
      diff_file_content { E with mark_unchanged := f } true ldp rdp p q
          lb rb tw gl bl lo =
        diff_file_content E true ldp rdp p q lb rb tw gl bl lo) := by
  refine ⟨fun _ _ _ _ => rfl, fun _ _ => rfl, fun _ _ => rfl, ?_⟩
  intro f ldp rdp p q lb rb tw gl bl lo
  rfl

/-- Tab replacement distributes over append. -/
theorem replace_tabs_append (xs ys : List Char) (w : Nat) :
    replace_tabs (xs ++ ys) w = replace_tabs xs w ++ replace_tabs ys w := by
  induction xs with
  | nil => rfl
  | cons c cs ih => simp [replace_tabs, ih]

/-- If the decoded source ends with a newline, the processed source is the
tab-replaced source with exactly its final newline removed. -/
theorem processedSource_of_trailing_newline (s : List Char) (w : Nat)
    (h : s.getLast? = some '\n') :
    processedSource s w ++ ['\n'] = replace_tabs s w := by
  have hdl : s.dropLast ++ ['\n'] = s := List.dropLast_append_getLast? '\n' h
  have h1 : replace_tabs s w = replace_tabs s.dropLast w ++ ['\n'] := by
    conv_lhs => rw [← hdl]
    rw [replace_tabs_append]
    simp [replace_tabs]
  have h2 : processedSource s w = replace_tabs s.dropLast w := by
    unfold processedSource strip_trailing_newline
    rw [h1]
    simp
  rw [h2, h1]

/-- Claim C9: for non-identical text inputs, a side whose decoded text ends
with a newline has exactly one trailing newline removed before diffing, and
the `FileContent::Text` returned for that side is that stripped string (its
append with one `'\n'` restores the tab-replaced input), so the returned
content is not the verbatim input (lines 118-126 and 227-237 of
`src/lib.rs`). -/
theorem trailing_newline_stripped (E : Deps L T P N C) (keep_unchanged : Bool)
    (ldp rdp : String) (p q : FileArgument) (lb rb : List Nat)
    (tw gl bl : Nat) (lo : Option L) (l r : List Char)
    (hl : E.guess_content lb = ProbableFileKind.Text l)
    (hr : E.guess_content rb = ProbableFileKind.Text r)
    (hne : lb ≠ rb) :
    (l.getLast? = some '\n' →
      (diff_file_content E keep_unchanged ldp rdp p q lb rb tw gl bl lo).lhs_src =
        FileContent.Text (processedSource l tw) ∧
      processedSource l tw ++ ['\n'] = replace_tabs l tw) ∧
    (r.getLast? = some '\n' →
      (diff_file_content E keep_unchanged ldp rdp p q lb rb tw gl bl lo).rhs_src =
        FileContent.Text (processedSource r tw) ∧
      processedSource r tw ++ ['\n'] = replace_tabs r tw) := by
  have hsrc : diff_file_content E keep_unchanged ldp rdp p q lb rb tw gl bl lo =
      textResult E keep_unchanged ldp rdp q lb rb gl bl lo
        (processedSource l tw) (processedSource r tw) := by
    unfold diff_file_content
    rw [hl, hr]
  constructor
  · intro h
    refine ⟨?_, processedSource_of_trailing_newline l tw h⟩
    rw [hsrc]
    simp only [textResult, if_neg hne]
  · intro h
    refine ⟨?_, processedSource_of_trailing_newline r tw h⟩
    rw [hsrc]
    simp only [textResult, if_neg hne]

/-- Claim C9 witness: the theorem evaluated at concrete text inputs whose
decoded sources both end with a newline. -/
theorem trailing_newline_stripped_witness :
    witDeps.guess_content [1] = ProbableFileKind.Text ['a', '\n'] ∧
    witDeps.guess_content [2] = ProbableFileKind.Text ['b', '\n'] ∧
    ([1] : List Nat) ≠ [2] ∧
    (['a', '\n'].getLast? = some '\n') ∧
    (['b', '\n'].getLast? = some '\n') ∧
    ((diff_file_content witDeps false "a" "b" FileArgument.DevNull
        FileArgument.DevNull [1] [2] 2 100 100 none).lhs_src =
      FileContent.Text (processedSource ['a', '\n'] 2) ∧
      processedSource ['a', '\n'] 2 ++ ['\n'] = replace_tabs ['a', '\n'] 2) ∧
    ((diff_file_content witDeps false "a" "b" FileArgument.DevNull
        FileArgument.DevNull [1] [2] 2 100 100 none).rhs_src =
      FileContent.Text (processedSource ['b', '\n'] 2) ∧
      processedSource ['b', '\n'] 2 ++ ['\n'] = replace_tabs ['b', '\n'] 2) :=
  ⟨rfl, rfl, by decide, rfl, rfl,
    (trailing_newline_stripped witDeps false "a" "b" FileArgument.DevNull
      FileArgument.DevNull [1] [2] 2 100 100 none ['a', '\n'] ['b', '\n']
      rfl rfl (by decide)).1 rfl,
    (trailing_newline_stripped witDeps false "a" "b" FileArgument.DevNull
      FileArgument.DevNull [1] [2] 2 100 100 none ['a', '\n'] ['b', '\n']
      rfl rfl (by decide)).2 rfl⟩
